import Mathlib

/-!
Verification of the solana-api-toolkit aggregation core against its
natural-language specification.

The development shallowly embeds the TypeScript sources:
* `packages/core/src/utils.ts` — `isValidSolanaAddress` (base58 decoding of a
  32-byte key, as performed by `new PublicKey(...)`) and `SimpleCache`;
* `packages/core/src/http.ts` — `CircuitBreaker` and `HttpClient.request`
  (retry via p-retry, error classification via `handleAxiosError`);
* `packages/token-service/src/token-service.ts` — `TokenService` with its
  cache-check → provider-fallback → cache-write methods.

Time (`Date.now()`) is threaded explicitly as a natural number of epoch
milliseconds.  Stateful JS methods become pure functions returning their
result together with the updated state.  Provider adapters are external
collaborators in the source and are modelled as records of optional
capability functions.
-/

namespace SolanaApiToolkit

/-! ## Base58 address validation (`isValidSolanaAddress`)

`new PublicKey(s)` base58-decodes `s` and demands exactly 32 decoded bytes.
A base58 decode yields one zero byte per leading `'1'` plus the minimal
big-endian byte representation of the accumulated value. -/

def base58Chars : List Char :=
  "123456789ABCDEFGHJKLMNPQRSTUVWXYZabcdefghijkmnopqrstuvwxyz".toList

/-- Value of one base58 digit: its index in the alphabet, if any. -/
def base58DigitVal (c : Char) : Option Nat :=
  base58Chars.findIdx? (fun d => d == c)

/-- Accumulated numeric value of a base58 string; `none` on a character
outside the alphabet. -/
def base58Value (cs : List Char) : Option Nat :=
  cs.foldlM (fun acc c => (base58DigitVal c).map (fun d => acc * 58 + d)) 0

/-- Fueled byte-length: number of base-256 digits of `n` (0 for 0), computed
with enough fuel that the cap at 64 bytes cannot disturb the 32-byte test. -/
def natBytesAux : Nat → Nat → Nat
  | 0, _ => 0
  | fuel + 1, n => if n = 0 then 0 else 1 + natBytesAux fuel (n / 256)

def natByteLength (n : Nat) : Nat := natBytesAux 64 n

/-- Embedding of `isValidSolanaAddress`: the string base58-decodes to exactly
32 bytes. -/
def isValidSolanaAddress (s : String) : Bool :=
  match base58Value s.toList with
  | none => false
  | some v =>
    let leadingOnes := (s.toList.takeWhile (fun c => c == '1')).length
    leadingOnes + natByteLength v == 32

/-! ## `SimpleCache` (core/src/utils.ts)

An association list mirrors the JS `Map<string, { value, expiry }>`; lookups
take the first matching key and `set` replaces any previous binding. -/

structure CacheEntry (α : Type) where
  value : α
  expiry : Nat
deriving Repr, DecidableEq

structure SimpleCache (α : Type) where
  entries : List (String × CacheEntry α)
deriving Repr, DecidableEq

def SimpleCache.empty {α : Type} : SimpleCache α := ⟨[]⟩

def SimpleCache.find? {α : Type} (c : SimpleCache α) (k : String) : Option (CacheEntry α) :=
  match c.entries.find? (fun e => e.fst == k) with
  | some (_, e) => some e
  | none => none

def SimpleCache.eraseKey {α : Type} (c : SimpleCache α) (k : String) : SimpleCache α :=
  ⟨c.entries.filter (fun e => e.fst != k)⟩

/-- `get(key)`: absent if never set or expired (`now > expiry`); an expired
entry is deleted on read.  Returns the possibly-updated cache. -/
def SimpleCache.get {α : Type} (c : SimpleCache α) (now : Nat) (k : String) :
    Option α × SimpleCache α :=
  match c.find? k with
  | none => (none, c)
  | some e => if now > e.expiry then (none, c.eraseKey k) else (some e.value, c)

/-- `set(key, value, ttlMs)`: unconditionally overwrite, `expiry = now + ttlMs`. -/
def SimpleCache.set {α : Type} (c : SimpleCache α) (now : Nat) (k : String) (v : α)
    (ttlMs : Nat) : SimpleCache α :=
  ⟨(k, ⟨v, now + ttlMs⟩) :: (c.eraseKey k).entries⟩

/-! ## `CircuitBreaker` (core/src/http.ts) -/

structure CircuitBreaker where
  threshold : Nat := 5
  resetTimeout : Nat := 30000
  failures : Nat := 0
  lastFailureTime : Nat := 0
  isOpen : Bool := false
deriving Repr, DecidableEq

def CircuitBreaker.recordSuccess (cb : CircuitBreaker) : CircuitBreaker :=
  { cb with failures := 0, isOpen := false }

/-- `recordFailure()`: bump the count, stamp the time, open at threshold;
returns the new state together with the returned `isOpen`. -/
def CircuitBreaker.recordFailure (cb : CircuitBreaker) (now : Nat) :
    CircuitBreaker × Bool :=
  let cb1 := { cb with failures := cb.failures + 1, lastFailureTime := now }
  let cb2 := if cb1.failures ≥ cb1.threshold then { cb1 with isOpen := true } else cb1
  (cb2, cb2.isOpen)

/-- `canRequest()`: an open circuit whose reset timeout has strictly elapsed
is closed on the spot and the request admitted. -/
def CircuitBreaker.canRequest (cb : CircuitBreaker) (now : Nat) :
    Bool × CircuitBreaker :=
  if !cb.isOpen then (true, cb)
  else if now - cb.lastFailureTime > cb.resetTimeout then
    (true, { cb with isOpen := false })
  else (false, cb)

/-! ## `HttpClient.request` (core/src/http.ts)

The axios transport is abstracted as a function from the attempt index to an
outcome: either response data or a failure carrying `axios.isAxiosError` and
the optional HTTP status.  `p-retry` (v5, as depended upon) retries every
thrown error that is neither an `AbortError` nor a `TypeError`; all errors
thrown by the request callback — the typed errors of `handleAxiosError` and
re-thrown non-axios errors — are ordinary `Error`s, so every failure is
retried while tries remain. -/

inductive AxiosOutcome (α : Type) where
  | ok (data : α)
  | fail (isAxiosError : Bool) (status : Option Nat) (message : String)
deriving Repr, DecidableEq

def AxiosOutcome.isFail {α : Type} : AxiosOutcome α → Bool
  | .ok _ => false
  | .fail _ _ _ => true

/-- Typed errors of `core/src/errors.ts` as thrown by the HTTP layer. -/
inductive ApiError where
  | rateLimitError (endpoint : String) (retryAfter : Nat)
  | authenticationError (endpoint : String)
  | notFoundError (resource endpoint : String)
  | apiRequestError (message endpoint : String) (status : Option Nat)
  | rawError (message : String)
deriving Repr, DecidableEq

/-- Message of each error object, as built by the constructors in
`core/src/errors.ts` (`ApiRequestError` prepends "API Request Error (ep): "). -/
def ApiError.message : ApiError → String
  | .rateLimitError ep _ => "API Request Error (" ++ ep ++ "): Rate limit exceeded"
  | .authenticationError ep => "API Request Error (" ++ ep ++ "): Authentication failed"
  | .notFoundError r ep => "API Request Error (" ++ ep ++ "): Resource not found: " ++ r
  | .apiRequestError m ep _ => "API Request Error (" ++ ep ++ "): " ++ m
  | .rawError m => m

/-- `handleAxiosError`: classify an axios failure by HTTP status. -/
def handleAxiosError (status : Option Nat) (message : String) (endpoint : String) :
    ApiError :=
  match status with
  | some 429 => .rateLimitError endpoint 0
  | some 401 => .authenticationError endpoint
  | some 403 => .authenticationError endpoint
  | some 404 => .notFoundError "Resource" endpoint
  | _ => .apiRequestError message endpoint status

instance {ε α : Type} [DecidableEq ε] [DecidableEq α] : DecidableEq (Except ε α) :=
  fun x y =>
    match x, y with
    | .ok a, .ok b => decidable_of_iff (a = b) (by simp)
    | .error a, .error b => decidable_of_iff (a = b) (by simp)
    | .ok _, .error _ => isFalse (fun h => Except.noConfusion h)
    | .error _, .ok _ => isFalse (fun h => Except.noConfusion h)

/-- Classification applied inside the request callback: axios errors go
through `handleAxiosError`, anything else is re-thrown as-is. -/
def classifyFailure (isAx : Bool) (status : Option Nat) (msg endpoint : String) :
    ApiError :=
  if isAx then handleAxiosError status msg endpoint else .rawError msg

/-- One execution of the p-retry callback: a successful axios call records a
circuit-breaker success before returning; a failed one is classified (if an
axios error) or re-thrown raw, leaving the breaker untouched. -/
def runAttempt {α : Type} (att : Nat → AxiosOutcome α) (cb : CircuitBreaker)
    (i : Nat) (endpoint : String) : Except ApiError α × CircuitBreaker :=
  match att i with
  | .ok d => (.ok d, cb.recordSuccess)
  | .fail isAx status msg => (.error (classifyFailure isAx status msg endpoint), cb)

/-- The p-retry driver: run an attempt, and while retries remain re-run on any
failure.  Returns the result, the breaker state, and the number of attempts
actually made. -/
def pRetryRun {α : Type} (att : Nat → AxiosOutcome α) (endpoint : String) :
    CircuitBreaker → Nat → Nat → Except ApiError α × CircuitBreaker × Nat
  | cb, i, 0 =>
    match runAttempt att cb i endpoint with
    | (.ok d, cb1) => (.ok d, cb1, 1)
    | (.error e, cb1) => (.error e, cb1, 1)
  | cb, i, r + 1 =>
    match runAttempt att cb i endpoint with
    | (.ok d, cb1) => (.ok d, cb1, 1)
    | (.error _, cb1) =>
      let (res, cb2, n) := pRetryRun att endpoint cb1 (i + 1) r
      (res, cb2, n + 1)

structure RequestResult (α : Type) where
  result : Except ApiError α
  breaker : CircuitBreaker
  attemptsMade : Nat
deriving Repr, DecidableEq

/-- `HttpClient.request`: gate on the circuit breaker, run p-retry with
`maxRetries` retries, record a single failure on the breaker if the whole
retried call fails, and wrap the escaping error (never an axios error at this
point) in a fresh `ApiRequestError`. -/
def HttpClient.request {α : Type} (maxRetries : Nat) (cb : CircuitBreaker)
    (now : Nat) (endpoint : String) (att : Nat → AxiosOutcome α) :
    RequestResult α :=
  match cb.canRequest now with
  | (false, cb1) =>
    ⟨.error (.apiRequestError "Circuit breaker is open" endpoint none), cb1, 0⟩
  | (true, cb1) =>
    let (res, cb2, n) := pRetryRun att endpoint cb1 0 maxRetries
    match res with
    | .ok d => ⟨.ok d, cb2, n⟩
    | .error e =>
      ⟨.error (.apiRequestError ("Request failed: " ++ e.message) endpoint none),
       (cb2.recordFailure now).1, n⟩

/-! ## Data model (core/src/types.ts, token-service/src/types.ts)

JS floating-point amounts are modelled as integers; none of the verified
claims depends on fractional arithmetic. -/

structure TokenPrice where
  mint : String
  priceUsd : Int
  priceChangePercentage24h : Option Int := none
  provider : String
  timestamp : Nat
deriving Repr, DecidableEq

structure TokenInfo where
  mint : String
  symbol : String
  name : String
  decimals : Nat
  logoUrl : Option String := none
  priceUsd : Option Int := none
  priceChangePercentage24h : Option Int := none
deriving Repr, DecidableEq

structure TokenBalance where
  mint : String
  amount : String
  uiAmount : Int
  tokenInfo : Option TokenInfo := none
deriving Repr, DecidableEq

structure WalletPortfolio where
  address : String
  solBalance : Int
  tokens : List TokenBalance
  totalValueUsd : Option Int := none
deriving Repr, DecidableEq

/-- Values stored in the service's single `SimpleCache<any>`.  Keys are
operation-prefixed, so each key prefix only ever maps to one variant. -/
inductive CVal where
  | price (p : TokenPrice)
  | info (i : TokenInfo)
  | balances (bs : List TokenBalance)
  | portfolio (w : WalletPortfolio)
deriving Repr, DecidableEq

/-- Errors crossing the `TokenService` boundary: `ValidationError` (with its
optional field) or a plain `Error` from an exhausted fallback loop. -/
inductive SvcError where
  | validation (message : String) (field : Option String)
  | failure (message : String)
deriving Repr, DecidableEq

/-- The `.message` property of the thrown JS error (`ValidationError`
prepends "Validation Error (field): ", per core/src/errors.ts). -/
def SvcError.message : SvcError → String
  | .validation m f =>
    "Validation Error" ++ (match f with | some fl => " (" ++ fl ++ ")" | none => "") ++ ": " ++ m
  | .failure m => m

/-- A provider adapter: a name, a priority rank, and four optional capability
functions (absent capabilities are skipped by the fallback loops).  Provider
calls are external collaborators and are modelled as pure functions from the
subject string to a result or an error message. -/
structure Provider where
  name : String
  priority : Int
  getTokenPrice : Option (String → Except String TokenPrice) := none
  getTokenMetadata : Option (String → Except String TokenInfo) := none
  getTokenBalances : Option (String → Except String (List TokenBalance)) := none
  getWalletPortfolio : Option (String → Except String WalletPortfolio) := none

/-- Outcome of one public `TokenService` method call: the settled value or
error, the cache afterwards, and the names of the providers invoked, in
invocation order. -/
structure SvcResult where
  result : Except SvcError CVal
  cache : SimpleCache CVal
  trace : List String
deriving Repr, DecidableEq

def DEFAULT_CACHE_TTL : Nat := 5 * 60 * 1000
def PRICE_CACHE_TTL : Nat := 60 * 1000

/-- `errors.map(e => e.message).join(', ')`. -/
def joinComma : List String → String
  | [] => ""
  | [e] => e
  | e :: es => e ++ ", " ++ joinComma es

/-! ### The common fallback loop

Each public method shares the shape: skip capability-less providers, return
the first success after writing it to the cache, accumulate
`name: message` strings on failure, and throw a combined error once the
provider list is exhausted.  The loop is defined once, over a capability
selector that already wraps the provider result as a cache value. -/

def fallbackLoop (now : Nat) (cap : Provider → Option (String → Except String CVal))
    (key : String) (ttl : Nat) (failMsg : String) (arg : String) :
    List Provider → SimpleCache CVal → List String → List String → SvcResult
  | [], c, errs, trace => ⟨.error (.failure (failMsg ++ joinComma errs)), c, trace⟩
  | p :: rest, c, errs, trace =>
    match cap p with
    | none => fallbackLoop now cap key ttl failMsg arg rest c errs trace
    | some f =>
      match f arg with
      | .ok v => ⟨.ok v, c.set now key v ttl, trace ++ [p.name]⟩
      | .error m =>
        fallbackLoop now cap key ttl failMsg arg rest c
          (errs ++ [p.name ++ ": " ++ m]) (trace ++ [p.name])

def capPrice (p : Provider) : Option (String → Except String CVal) :=
  p.getTokenPrice.map (fun g => fun m => (g m).map CVal.price)

def capMetadata (p : Provider) : Option (String → Except String CVal) :=
  p.getTokenMetadata.map (fun g => fun m => (g m).map CVal.info)

def capBalances (p : Provider) : Option (String → Except String CVal) :=
  p.getTokenBalances.map (fun g => fun a => (g a).map CVal.balances)

/-- `TokenService.getTokenPrice`: validate, check the cache under
`token-price:<mint>`, then run the fallback loop with the short price TTL. -/
def getTokenPriceM (providers : List Provider) (now : Nat) (cache : SimpleCache CVal)
    (mint : String) : SvcResult :=
  if isValidSolanaAddress mint then
    match cache.get now ("token-price:" ++ mint) with
    | (some v, c) => ⟨.ok v, c, []⟩
    | (none, c) =>
      fallbackLoop now capPrice ("token-price:" ++ mint) PRICE_CACHE_TTL
        ("Failed to get token price for " ++ mint ++ ": ") mint providers c [] []
  else ⟨.error (.validation "Invalid token mint address" (some "mint")), cache, []⟩

/-- `TokenService.getTokenMetadata`: as above under `token-metadata:` with the
default TTL. -/
def getTokenMetadataM (providers : List Provider) (now : Nat) (cache : SimpleCache CVal)
    (mint : String) : SvcResult :=
  if isValidSolanaAddress mint then
    match cache.get now ("token-metadata:" ++ mint) with
    | (some v, c) => ⟨.ok v, c, []⟩
    | (none, c) =>
      fallbackLoop now capMetadata ("token-metadata:" ++ mint) DEFAULT_CACHE_TTL
        ("Failed to get token metadata for " ++ mint ++ ": ") mint providers c [] []
  else ⟨.error (.validation "Invalid token mint address" (some "mint")), cache, []⟩

/-- `TokenService.getTokenBalances`: as above under `token-balances:`. -/
def getTokenBalancesM (providers : List Provider) (now : Nat) (cache : SimpleCache CVal)
    (address : String) : SvcResult :=
  if isValidSolanaAddress address then
    match cache.get now ("token-balances:" ++ address) with
    | (some v, c) => ⟨.ok v, c, []⟩
    | (none, c) =>
      fallbackLoop now capBalances ("token-balances:" ++ address) DEFAULT_CACHE_TTL
        ("Failed to get token balances for " ++ address ++ ": ") address providers c [] []
  else ⟨.error (.validation "Invalid wallet address" (some "address")), cache, []⟩

/-! ### Untyped cache-value access

The JS code reads fields off whatever the shared `SimpleCache<any>` returned.
Within this service every value written under a `token-price:` (resp.
`token-metadata:`, `token-balances:`, `wallet-portfolio:`) key is of the
corresponding variant and key prefixes never collide, so the mismatched
branches below are unreachable in states this model produces; they are given
harmless defaults to keep the functions total. -/

def cvPrice : CVal → TokenPrice
  | .price p => p
  | _ => { mint := "", priceUsd := 0, provider := "", timestamp := 0 }

def cvInfo : CVal → TokenInfo
  | .info i => i
  | _ => { mint := "", symbol := "", name := "", decimals := 0 }

def cvBalances : CVal → List TokenBalance
  | .balances bs => bs
  | _ => []

def SOL_MINT : String := "So11111111111111111111111111111111111111112"

/-- `TokenService.getSolPrice`: fetch SOL's price through the full fallback
method, defaulting to 0 on failure. -/
def getSolPriceM (providers : List Provider) (now : Nat) (cache : SimpleCache CVal) :
    Int × SimpleCache CVal × List String :=
  match getTokenPriceM providers now cache SOL_MINT with
  | ⟨.ok v, c, tr⟩ => ((cvPrice v).priceUsd, c, tr)
  | ⟨.error _, c, tr⟩ => (0, c, tr)

/-- Enrichment of a single token: a successful `getTokenPrice` sets the
token's `tokenInfo.priceUsd` / `priceChangePercentage24h` and contributes
`uiAmount * priceUsd` to the total; a failure leaves the token untouched and
contributes nothing. -/
def enrichToken (providers : List Provider) (now : Nat) (cache : SimpleCache CVal)
    (t : TokenBalance) : TokenBalance × Int × SimpleCache CVal × List String :=
  match getTokenPriceM providers now cache t.mint with
  | ⟨.ok v, c, tr⟩ =>
    let p := cvPrice v
    ({ t with tokenInfo := t.tokenInfo.map (fun ti =>
        { ti with priceUsd := some p.priceUsd,
                  priceChangePercentage24h := p.priceChangePercentage24h }) },
     t.uiAmount * p.priceUsd, c, tr)
  | ⟨.error _, c, tr⟩ => (t, 0, c, tr)

/-- The fan-out over a portfolio's tokens (modelled sequentially; every fetch
is independent and each failure is swallowed individually). -/
def enrichTokenList (providers : List Provider) (now : Nat) :
    List TokenBalance → SimpleCache CVal →
    List TokenBalance × Int × SimpleCache CVal × List String
  | [], c => ([], 0, c, [])
  | t :: ts, c =>
    let (t1, val, c1, tr1) := enrichToken providers now c t
    let (ts1, vals, c2, tr2) := enrichTokenList providers now ts c1
    (t1 :: ts1, val + vals, c2, tr1 ++ tr2)

/-- `TokenService.enrichPortfolioWithPrices`: start the total from
`solBalance * solPrice`, enrich every token, and store the total. -/
def enrichPortfolioWithPrices (providers : List Provider) (now : Nat)
    (w : WalletPortfolio) (cache : SimpleCache CVal) :
    WalletPortfolio × SimpleCache CVal × List String :=
  let (solPrice, c1, tr1) := getSolPriceM providers now cache
  let (tokens1, tokensValue, c2, tr2) := enrichTokenList providers now w.tokens c1
  ({ w with tokens := tokens1,
            totalValueUsd := some (w.solBalance * solPrice + tokensValue) },
   c2, tr1 ++ tr2)

/-- The `getWalletPortfolio` fallback loop with its degraded reconstruction:
once every provider is exhausted, build a portfolio from
`getTokenBalances(address)` with `solBalance = 0`; if that also fails, append
`fallback: <message>` to the accumulated errors and throw the combined
error. -/
def portfolioLoop (providers : List Provider) (now : Nat) (addr : String) :
    List Provider → SimpleCache CVal → List String → List String → SvcResult
  | [], c, errs, trace =>
    match getTokenBalancesM providers now c addr with
    | ⟨.ok bv, c1, tr1⟩ =>
      let w : WalletPortfolio :=
        { address := addr, solBalance := 0, tokens := cvBalances bv,
          totalValueUsd := some 0 }
      let (w1, c2, tr2) := enrichPortfolioWithPrices providers now w c1
      ⟨.ok (.portfolio w1),
       c2.set now ("wallet-portfolio:" ++ addr) (.portfolio w1) DEFAULT_CACHE_TTL,
       trace ++ tr1 ++ tr2⟩
    | ⟨.error e, c1, tr1⟩ =>
      ⟨.error (.failure ("Failed to get wallet portfolio for " ++ addr ++ ": " ++
        joinComma (errs ++ ["fallback: " ++ e.message]))), c1, trace ++ tr1⟩
  | p :: rest, c, errs, trace =>
    match p.getWalletPortfolio with
    | none => portfolioLoop providers now addr rest c errs trace
    | some f =>
      match f addr with
      | .ok w =>
        let (w1, c2, tr2) := enrichPortfolioWithPrices providers now w c
        ⟨.ok (.portfolio w1),
         c2.set now ("wallet-portfolio:" ++ addr) (.portfolio w1) DEFAULT_CACHE_TTL,
         trace ++ [p.name] ++ tr2⟩
      | .error m =>
        portfolioLoop providers now addr rest c
          (errs ++ [p.name ++ ": " ++ m]) (trace ++ [p.name])

/-- `TokenService.getWalletPortfolio`. -/
def getWalletPortfolioM (providers : List Provider) (now : Nat)
    (cache : SimpleCache CVal) (address : String) : SvcResult :=
  if isValidSolanaAddress address then
    match cache.get now ("wallet-portfolio:" ++ address) with
    | (some v, c) => ⟨.ok v, c, []⟩
    | (none, c) => portfolioLoop providers now address providers c [] []
  else ⟨.error (.validation "Invalid wallet address" (some "address")), cache, []⟩

/-- `TokenService.getTokenData`: combine `getTokenMetadata` (degrading to the
placeholder `{mint, name:'', symbol:'', decimals:0}`) with `getTokenPrice`
(degrading to no price), overwrite the price fields of the merged record, and
cache it under `token-data:<mint>` with the short price TTL.  The source runs
the two fetches through `Promise.all`; they read and write distinct cache
keys, so the fan-out is modelled sequentially (metadata first, then price on
the resulting cache). -/
def getTokenDataM (providers : List Provider) (now : Nat) (cache : SimpleCache CVal)
    (mint : String) : SvcResult :=
  if isValidSolanaAddress mint then
    match cache.get now ("token-data:" ++ mint) with
    | (some v, c) => ⟨.ok v, c, []⟩
    | (none, c) =>
      let mres := getTokenMetadataM providers now c mint
      let metadata : TokenInfo :=
        match mres.result with
        | .ok v => cvInfo v
        | .error _ => { mint := mint, name := "", symbol := "", decimals := 0 }
      let pres := getTokenPriceM providers now mres.cache mint
      let price : Option TokenPrice :=
        match pres.result with
        | .ok v => some (cvPrice v)
        | .error _ => none
      let tokenData : TokenInfo :=
        { metadata with priceUsd := price.map (fun p => p.priceUsd),
                        priceChangePercentage24h :=
                          price.bind (fun p => p.priceChangePercentage24h) }
      ⟨.ok (.info tokenData),
       pres.cache.set now ("token-data:" ++ mint) (.info tokenData) PRICE_CACHE_TTL,
       mres.trace ++ pres.trace⟩
  else ⟨.error (.validation "Invalid token mint address" (some "mint")), cache, []⟩

/-! ### Construction

`initializeProviders` collects the configured providers, then the constructor
sorts them ascending by priority with JS's stable `Array.prototype.sort`. -/

def provLe (a b : Provider) : Prop := a.priority ≤ b.priority

instance : DecidableRel provLe := fun a b => Int.decLe a.priority b.priority

instance : IsTotal Provider provLe := ⟨fun a b => Int.le_total a.priority b.priority⟩

instance : IsTrans Provider provLe := ⟨fun _ _ _ h1 h2 => le_trans h1 h2⟩

def sortByPriority (l : List Provider) : List Provider := l.insertionSort provLe

structure TokenService where
  providers : List Provider
  cache : SimpleCache CVal

/-- The `TokenService` constructor: fail with a configuration error when no
provider is configured, otherwise sort the configured list by priority. -/
def mkTokenService (configured : List Provider) : Except SvcError TokenService :=
  if configured.length = 0 then
    .error (.failure "No token data providers configured")
  else .ok { providers := sortByPriority configured, cache := SimpleCache.empty }

def TokenService.getTokenPrice (s : TokenService) (now : Nat) (mint : String) :
    SvcResult :=
  getTokenPriceM s.providers now s.cache mint

def TokenService.getTokenMetadata (s : TokenService) (now : Nat) (mint : String) :
    SvcResult :=
  getTokenMetadataM s.providers now s.cache mint

def TokenService.getTokenBalances (s : TokenService) (now : Nat) (address : String) :
    SvcResult :=
  getTokenBalancesM s.providers now s.cache address

def TokenService.getWalletPortfolio (s : TokenService) (now : Nat) (address : String) :
    SvcResult :=
  getWalletPortfolioM s.providers now s.cache address

def TokenService.getTokenData (s : TokenService) (now : Nat) (mint : String) :
    SvcResult :=
  getTokenDataM s.providers now s.cache mint

/-! ### Attempt bookkeeping used by the loop lemmas -/

/-- Providers a fallback loop attempts (those exposing the capability), in
order. -/
def attemptTrace (cap : Provider → Option (String → Except String CVal)) :
    List Provider → List String :=
  List.filterMap (fun q => match cap q with | none => none | some _ => some q.name)

/-- The `name: message` failure strings a fallback loop accumulates over a
list of providers that all skip or fail. -/
def attemptErrs (cap : Provider → Option (String → Except String CVal))
    (arg : String) : List Provider → List String :=
  List.filterMap (fun q =>
    match cap q with
    | none => none
    | some g =>
      match g arg with
      | .ok _ => none
      | .error m => some (q.name ++ ": " ++ m))

/-- A provider the loop passes over without succeeding: either the capability
is absent or the call fails. -/
def skipsOrFails (cap : Provider → Option (String → Except String CVal))
    (arg : String) (q : Provider) : Prop :=
  cap q = none ∨ ∃ g m, cap q = some g ∧ g arg = Except.error m

/-- Attempted providers of the portfolio loop (it matches directly on the
`getWalletPortfolio` capability). -/
def portfolioAttemptTrace : List Provider → List String :=
  List.filterMap (fun q =>
    match q.getWalletPortfolio with | none => none | some _ => some q.name)

/-- Failure strings accumulated by the portfolio loop. -/
def portfolioAttemptErrs (addr : String) : List Provider → List String :=
  List.filterMap (fun q =>
    match q.getWalletPortfolio with
    | none => none
    | some g =>
      match g addr with
      | .ok _ => none
      | .error m => some (q.name ++ ": " ++ m))

/-- The degraded `getTokenData` result when metadata is unavailable but a
price `v` was obtained: the placeholder metadata with the price fields
overwritten from `v`. -/
def degradedInfo (mint : String) (v : TokenPrice) : TokenInfo :=
  { mint := mint, symbol := "", name := "", decimals := 0,
    priceUsd := some v.priceUsd,
    priceChangePercentage24h := v.priceChangePercentage24h }

/-! ### Concrete fixtures used to evaluate the theorems on closed inputs -/

/-- The USDC mint, a syntactically valid Solana address. -/
def USDC_MINT : String := "EPjFWdd5AufqSSqeM2qN1xzybapC8G4wEGGkZwyTDt1v"

def cbC2 : CircuitBreaker := { threshold := 1, resetTimeout := 5 }

/-- The C2 breaker after its opening failure at t=0. -/
def cbC2Open : CircuitBreaker := (cbC2.recordFailure 0).1

def attC3 : Nat → AxiosOutcome Nat :=
  fun i => if i = 0 then .fail true (some 429) "Too Many Requests" else .ok 42

def attC3all : Nat → AxiosOutcome Nat :=
  fun _ => .fail true (some 429) "Too Many Requests"

def attC4 : Nat → AxiosOutcome Nat := fun _ => .fail false none "ECONNRESET"

def attC4ok : Nat → AxiosOutcome Nat :=
  fun i => if i = 0 then .fail true (some 500) "Internal Server Error" else .ok 7

def samplePrice : TokenPrice :=
  { mint := USDC_MINT, priceUsd := 1, provider := "gamma", timestamp := 77 }

def provAlpha : Provider :=
  { name := "alpha", priority := 2,
    getTokenPrice := some (fun _ => .error "boom"),
    getTokenMetadata := some (fun _ => .error "no metadata"),
    getTokenBalances := some (fun _ => .error "no balances"),
    getWalletPortfolio := some (fun _ => .error "no portfolio") }

def provBeta : Provider :=
  { name := "beta", priority := 1,
    getTokenBalances := some (fun _ =>
      .ok [{ mint := USDC_MINT, amount := "5000000", uiAmount := 5 }]) }

def provGamma : Provider :=
  { name := "gamma", priority := 3,
    getTokenPrice := some (fun _ => .ok samplePrice),
    getTokenMetadata := some (fun _ => .error "gamma metadata down") }

def provDelta : Provider :=
  { name := "delta", priority := 4,
    getTokenPrice := some (fun m =>
      .ok { mint := m, priceUsd := 99, provider := "delta", timestamp := 1 }) }

/-- A provider set where both configured providers fail `getTokenPrice`. -/
def provFailOne : Provider :=
  { name := "one", priority := 1, getTokenPrice := some (fun _ => .error "rate limited") }

def provFailTwo : Provider :=
  { name := "two", priority := 2, getTokenPrice := some (fun _ => .error "not listed") }

/-- Balance list with no `tokenInfo`, returned by the C9 fixture provider. -/
def balC9 : List TokenBalance :=
  [{ mint := USDC_MINT, amount := "1000000", uiAmount := 1 }]

def provC9bal : Provider :=
  { name := "baldep", priority := 2,
    getTokenBalances := some (fun _ => .ok balC9),
    getWalletPortfolio := some (fun _ => .error "portfolio endpoint gone") }

def provC9noport : Provider :=
  { name := "noport", priority := 1,
    getWalletPortfolio := some (fun _ => .error "http 500") }

def provC9balFail : Provider :=
  { name := "balfail", priority := 2,
    getTokenBalances := some (fun _ => .error "balances down"),
    getWalletPortfolio := some (fun _ => .error "portfolio endpoint gone") }

/-- A service whose cache was seeded under `token-price:<USDC>` at t=50 with
a 1000ms TTL. -/
def svcC7 : TokenService :=
  { providers := [provDelta],
    cache := SimpleCache.empty.set 50 ("token-price:" ++ USDC_MINT)
      (.price samplePrice) 1000 }

def infoC10 : TokenInfo :=
  { mint := USDC_MINT, symbol := "USDC", name := "USD Coin", decimals := 6 }

def provC10meta : Provider :=
  { name := "metaonly", priority := 1,
    getTokenMetadata := some (fun _ => .ok infoC10),
    getTokenPrice := some (fun _ => .error "price feed down") }

/-! # Theorems -/

/-! ## Retry-loop lemmas -/

/-- If attempts `i, …, i+k-1` fail and attempt `i+k` succeeds (with `k` within
the retry budget), p-retry returns the success after exactly `k+1` attempts,
with the breaker reset by the in-callback `recordSuccess`. -/
theorem pRetryRun_success_at {α : Type} (att : Nat → AxiosOutcome α) (ep : String)
    (v : α) (k : Nat) :
    ∀ (cb : CircuitBreaker) (i r : Nat), k ≤ r →
      (∀ j, j < k → (att (i + j)).isFail = true) → att (i + k) = .ok v →
      pRetryRun att ep cb i r = (.ok v, cb.recordSuccess, k + 1) := by
  induction k with
  | zero =>
    intro cb i r _ _ hsucc
    rw [Nat.add_zero] at hsucc
    cases r with
    | zero => simp [pRetryRun, runAttempt, hsucc]
    | succ r => simp [pRetryRun, runAttempt, hsucc]
  | succ k ih =>
    intro cb i r hk hfail hsucc
    have h0 : (att i).isFail = true := by
      have h := hfail 0 (Nat.succ_pos k)
      rwa [Nat.add_zero] at h
    obtain ⟨b, st, m, hfi⟩ : ∃ b st m, att i = .fail b st m := by
      cases hatt : att i with
      | ok d => rw [hatt] at h0; simp [AxiosOutcome.isFail] at h0
      | fail b st m => exact ⟨b, st, m, rfl⟩
    cases r with
    | zero => omega
    | succ r =>
      have hrec := ih cb (i + 1) r (Nat.le_of_succ_le_succ hk)
        (fun j hj => by
          have h := hfail (j + 1) (Nat.succ_lt_succ hj)
          rwa [show i + (j + 1) = i + 1 + j by omega] at h)
        (by rwa [show i + 1 + k = i + (k + 1) by omega])
      simp [pRetryRun, runAttempt, hfi, hrec]

/-- If every attempt in the budget fails, p-retry makes all `r+1` attempts,
surfaces the last error, and leaves the breaker untouched. -/
theorem pRetryRun_all_fail {α : Type} (att : Nat → AxiosOutcome α) (ep : String)
    (r : Nat) :
    ∀ (cb : CircuitBreaker) (i : Nat),
      (∀ j, j ≤ r → (att (i + j)).isFail = true) →
      ∃ e, pRetryRun att ep cb i r = (.error e, cb, r + 1) := by
  induction r with
  | zero =>
    intro cb i hfail
    have h0 : (att i).isFail = true := by
      have h := hfail 0 (Nat.le_refl 0)
      rwa [Nat.add_zero] at h
    obtain ⟨b, st, m, hfi⟩ : ∃ b st m, att i = .fail b st m := by
      cases hatt : att i with
      | ok d => rw [hatt] at h0; simp [AxiosOutcome.isFail] at h0
      | fail b st m => exact ⟨b, st, m, rfl⟩
    exact ⟨classifyFailure b st m ep, by simp [pRetryRun, runAttempt, hfi]⟩
  | succ r ih =>
    intro cb i hfail
    have h0 : (att i).isFail = true := by
      have h := hfail 0 (Nat.zero_le _)
      rwa [Nat.add_zero] at h
    obtain ⟨b, st, m, hfi⟩ : ∃ b st m, att i = .fail b st m := by
      cases hatt : att i with
      | ok d => rw [hatt] at h0; simp [AxiosOutcome.isFail] at h0
      | fail b st m => exact ⟨b, st, m, rfl⟩
    obtain ⟨e, he⟩ := ih cb (i + 1)
      (fun j hj => by
        have h := hfail (j + 1) (Nat.succ_le_succ hj)
        rwa [show i + (j + 1) = i + 1 + j by omega] at h)
    exact ⟨e, by simp [pRetryRun, runAttempt, hfi, he]⟩

/-! ## Claim C2 — circuit breaker recovery -/

/-- Claim C2 (counterexample): with threshold 1 and resetTimeout 5, one
failure at t=0 opens the circuit; at t=6 `canRequest` admits a request, and a
second `canRequest` — with no trial outcome recorded in between — admits
another, the failure count still standing.  The code therefore does not
implement a half-open state admitting exactly one trial attempt. -/
theorem C2_counterexample :
    (cbC2.recordFailure 0).1.isOpen = true
  ∧ ((cbC2.recordFailure 0).1.canRequest 6).1 = true
  ∧ (((cbC2.recordFailure 0).1.canRequest 6).2.canRequest 6).1 = true
  ∧ ¬ ((((cbC2.recordFailure 0).1.canRequest 6).2.canRequest 6).1 = false)
  ∧ (((cbC2.recordFailure 0).1.canRequest 6).2.canRequest 6).2.failures = 1 := by
  decide

/-- Claim C2 (amended): once the circuit is open and `resetTimeout` has
strictly elapsed since the last failure, `canRequest` closes the circuit
outright (keeping `failureCount`) and admits the attempt; further attempts
are admitted as well before any outcome is recorded.  A subsequent success
resets `failureCount` to 0 and keeps the circuit closed; a subsequent failure
re-opens it (the retained count is still at threshold) and refreshes
`lastFailureAt`. -/
theorem C2_reset_closes_circuit (cb : CircuitBreaker) (now t : Nat)
    (hopen : cb.isOpen = true)
    (helapsed : now - cb.lastFailureTime > cb.resetTimeout)
    (hcount : cb.failures ≥ cb.threshold) :
    (cb.canRequest now).1 = true
  ∧ (cb.canRequest now).2 = { cb with isOpen := false }
  ∧ ((cb.canRequest now).2.canRequest now).1 = true
  ∧ (cb.canRequest now).2.recordSuccess.failures = 0
  ∧ (cb.canRequest now).2.recordSuccess.isOpen = false
  ∧ ((cb.canRequest now).2.recordFailure t).1.isOpen = true
  ∧ ((cb.canRequest now).2.recordFailure t).1.lastFailureTime = t
  ∧ ((cb.canRequest now).2.recordFailure t).1.failures = cb.failures + 1 := by
  have hcr : cb.canRequest now = (true, { cb with isOpen := false }) := by
    simp [CircuitBreaker.canRequest, hopen, helapsed]
  have hthr : cb.threshold ≤ cb.failures + 1 := Nat.le_succ_of_le hcount
  rw [hcr]
  refine ⟨rfl, rfl, ?_, ?_, ?_, ?_, ?_, ?_⟩ <;>
    simp [CircuitBreaker.canRequest, CircuitBreaker.recordSuccess,
      CircuitBreaker.recordFailure, hthr]

/-- Witness for the amended C2 theorem at a concrete breaker. -/
theorem C2_reset_closes_circuit_witness :
    cbC2Open.isOpen = true ∧ 6 - cbC2Open.lastFailureTime > cbC2Open.resetTimeout
  ∧ cbC2Open.failures ≥ cbC2Open.threshold
  ∧ ((cbC2Open.canRequest 6).1 = true
      ∧ (cbC2Open.canRequest 6).2 = { cbC2Open with isOpen := false }
      ∧ ((cbC2Open.canRequest 6).2.canRequest 6).1 = true
      ∧ (cbC2Open.canRequest 6).2.recordSuccess.failures = 0
      ∧ (cbC2Open.canRequest 6).2.recordSuccess.isOpen = false
      ∧ ((cbC2Open.canRequest 6).2.recordFailure 9).1.isOpen = true
      ∧ ((cbC2Open.canRequest 6).2.recordFailure 9).1.lastFailureTime = 9
      ∧ ((cbC2Open.canRequest 6).2.recordFailure 9).1.failures = cbC2Open.failures + 1) :=
  ⟨by decide, by decide, by decide,
   C2_reset_closes_circuit cbC2Open 6 9 (by decide) (by decide) (by decide)⟩

/-! ## Claims C3 and C4 — retry classification and failure accounting -/

/-- Claim C3 (counterexample): a first attempt failing with HTTP 429 — a
classified client error — is followed by a second attempt, which succeeds and
is returned.  The claim predicts the 429 is raised after a single attempt
with no retry. -/
theorem C3_counterexample :
    (HttpClient.request 3 {} 0 "/price" attC3).result = .ok 42
  ∧ (HttpClient.request 3 {} 0 "/price" attC3).attemptsMade = 2
  ∧ ¬ (HttpClient.request 3 {} 0 "/price" attC3).attemptsMade = 1 := by
  decide

/-- Claim C3 (amended): no failure class is exempt from retry.  Every failed
attempt — network error, 5xx, no-response, or a classified client error
(429/401/403/404) — triggers a retry while tries remain; a run whose first
`k` attempts fail (with any statuses) and whose attempt `k` succeeds makes
exactly `k+1` attempts and returns the success, and a run whose whole budget
of `maxRetries + 1` attempts fails makes them all before surfacing a wrapped
`ApiRequestError`. -/
theorem C3_all_failures_retried {α : Type} (maxRetries : Nat) (cb : CircuitBreaker)
    (now : Nat) (ep : String) (att : Nat → AxiosOutcome α)
    (hcan : (cb.canRequest now).1 = true) :
    (∀ k v, k ≤ maxRetries → (∀ i, i < k → (att i).isFail = true) →
      att k = .ok v →
      HttpClient.request maxRetries cb now ep att =
        ⟨.ok v, (cb.canRequest now).2.recordSuccess, k + 1⟩)
  ∧ ((∀ i, i ≤ maxRetries → (att i).isFail = true) →
      (HttpClient.request maxRetries cb now ep att).attemptsMade = maxRetries + 1
    ∧ ∃ m, (HttpClient.request maxRetries cb now ep att).result =
        .error (.apiRequestError m ep none)) := by
  rcases hcb : cb.canRequest now with ⟨b, cb1⟩
  rw [hcb] at hcan
  simp only at hcan
  subst hcan
  constructor
  · intro k v hk hfail hsucc
    have hrun := pRetryRun_success_at att ep v k cb1 0 maxRetries hk
      (fun j hj => by simpa using hfail j hj) (by simpa using hsucc)
    simp only [HttpClient.request, hcb, hrun]
  · intro hfail
    obtain ⟨e, he⟩ := pRetryRun_all_fail att ep maxRetries cb1 0
      (fun j hj => by simpa using hfail j hj)
    simp only [HttpClient.request, hcb, he]
    exact ⟨by simp, "Request failed: " ++ e.message, by simp⟩

/-- Witness for the amended C3 theorem: with a 429 on every attempt and
`maxRetries = 2`, all three attempts are made; with a 429 then a success, the
success is returned after two attempts. -/
theorem C3_all_failures_retried_witness :
    ((({} : CircuitBreaker).canRequest 0).1 = true)
  ∧ HttpClient.request 3 {} 0 "/price" attC3 =
      ⟨.ok 42, (({} : CircuitBreaker).canRequest 0).2.recordSuccess, 2⟩
  ∧ (HttpClient.request 2 {} 0 "/price" attC3all).attemptsMade = 2 + 1 := by
  refine ⟨by decide, ?_, ?_⟩
  · exact (C3_all_failures_retried 3 {} 0 "/price" attC3 (by decide)).1 1 42
      (by decide) (fun i hi => by interval_cases i; decide) (by decide)
  · exact ((C3_all_failures_retried 2 {} 0 "/price" attC3all (by decide)).2
      (fun i _ => rfl)).1

/-- Claim C4 (counterexample): with `maxRetries = 2` a request makes three
failing attempts, yet the breaker's `failureCount` rises by one, not three:
`recordFailure` runs once per failed request, not once per failed attempt. -/
theorem C4_counterexample :
    (HttpClient.request 2 {} 5 "/x" attC4).attemptsMade = 3
  ∧ (HttpClient.request 2 {} 5 "/x" attC4).breaker.failures = 1
  ∧ ¬ (HttpClient.request 2 {} 5 "/x" attC4).breaker.failures = 3 := by
  decide

/-- Claim C4 (amended): a request whose every attempt fails increments the
breaker's `failureCount` by exactly one — `recordFailure` runs once, after
the retry loop is exhausted, regardless of how many attempts failed — while
a request that reaches a successful attempt resets `failureCount` to 0 and
closes the circuit. -/
theorem C4_failure_count_per_request {α : Type} (maxRetries : Nat)
    (cb : CircuitBreaker) (now : Nat) (ep : String) (att : Nat → AxiosOutcome α)
    (hcan : (cb.canRequest now).1 = true) :
    ((∀ i, i ≤ maxRetries → (att i).isFail = true) →
      (HttpClient.request maxRetries cb now ep att).breaker =
        ((cb.canRequest now).2.recordFailure now).1
    ∧ (HttpClient.request maxRetries cb now ep att).breaker.failures =
        (cb.canRequest now).2.failures + 1)
  ∧ (∀ k v, k ≤ maxRetries → (∀ i, i < k → (att i).isFail = true) →
      att k = .ok v →
      (HttpClient.request maxRetries cb now ep att).breaker.failures = 0
    ∧ (HttpClient.request maxRetries cb now ep att).breaker.isOpen = false) := by
  rcases hcb : cb.canRequest now with ⟨b, cb1⟩
  rw [hcb] at hcan
  simp only at hcan
  subst hcan
  constructor
  · intro hfail
    obtain ⟨e, he⟩ := pRetryRun_all_fail att ep maxRetries cb1 0
      (fun j hj => by simpa using hfail j hj)
    simp only [HttpClient.request, hcb, he]
    refine ⟨by simp, ?_⟩
    simp only [CircuitBreaker.recordFailure]
    split <;> rfl
  · intro k v hk hfail hsucc
    have hrun := pRetryRun_success_at att ep v k cb1 0 maxRetries hk
      (fun j hj => by simpa using hfail j hj) (by simpa using hsucc)
    simp only [HttpClient.request, hcb, hrun]
    exact ⟨rfl, rfl⟩

/-- Witness for the amended C4 theorem: an all-failing run bumps the count by
one; a run that recovers on its second attempt resets it. -/
theorem C4_failure_count_per_request_witness :
    ((({} : CircuitBreaker).canRequest 5).1 = true)
  ∧ (HttpClient.request 2 {} 5 "/x" attC4).breaker =
      ((({} : CircuitBreaker).canRequest 5).2.recordFailure 5).1
  ∧ (HttpClient.request 2 {} 5 "/x" attC4ok).breaker.failures = 0
  ∧ (HttpClient.request 2 {} 5 "/x" attC4ok).breaker.isOpen = false := by
  refine ⟨by decide, ?_, ?_, ?_⟩
  · exact ((C4_failure_count_per_request 2 {} 5 "/x" attC4 (by decide)).1
      (fun i _ => rfl)).1
  · exact ((C4_failure_count_per_request 2 {} 5 "/x" attC4ok (by decide)).2 1 7
      (by decide) (fun i hi => by interval_cases i; decide) (by decide)).1
  · exact ((C4_failure_count_per_request 2 {} 5 "/x" attC4ok (by decide)).2 1 7
      (by decide) (fun i hi => by interval_cases i; decide) (by decide)).2

/-! ## Claim C8 — SimpleCache TTL semantics -/

/-- Claim C8: after `set(key, value, ttl)` at time `t0`, a `get(key)` at time
`t` returns the value exactly when `t ≤ t0 + ttl`, and otherwise returns
absent and deletes the expired entry; a never-set key reads absent; `set`
unconditionally overwrites an existing entry. -/
theorem C8_cache_ttl {α : Type} (c : SimpleCache α) (k : String) (v : α)
    (t0 t ttl : Nat) :
    ((c.set t0 k v ttl).get t k).1 = (if t ≤ t0 + ttl then some v else none)
  ∧ (t0 + ttl < t → ((c.set t0 k v ttl).get t k).2.find? k = none)
  ∧ ((SimpleCache.empty : SimpleCache α).get t k).1 = none
  ∧ (∀ v2 ttl2 t1, ((c.set t0 k v ttl).set t1 k v2 ttl2).find? k =
      some ⟨v2, t1 + ttl2⟩) := by
  have hfind : ∀ (d : SimpleCache α) (w : α) (s u : Nat),
      (d.set s k w u).find? k = some ⟨w, s + u⟩ := by
    intro d w s u
    simp [SimpleCache.set, SimpleCache.find?]
  have herase : ∀ (l : List (String × CacheEntry α)),
      (l.filter (fun e => e.fst != k)).find? (fun e => e.fst == k) = none := by
    intro l
    rw [List.find?_eq_none]
    intro x hx
    have hmem := List.of_mem_filter hx
    simp at hmem
    simp [hmem]
  refine ⟨?_, ?_, ?_, fun v2 ttl2 t1 => hfind _ v2 t1 ttl2⟩
  · rw [SimpleCache.get, hfind]
    by_cases h : t ≤ t0 + ttl
    · simp [h, Nat.not_lt.mpr h]
    · simp [h, Nat.lt_of_not_le h]
  · intro hlt
    rw [SimpleCache.get, hfind]
    simp only [Nat.lt_iff_add_one_le] at hlt
    have : t > t0 + ttl := hlt
    simp [this, SimpleCache.eraseKey, SimpleCache.find?, herase]
  · simp [SimpleCache.get, SimpleCache.empty, SimpleCache.find?]

/-- Witness for C8 at the claim's own numbers: ttl 1000, set at 0; a get at
1000 hits, a get at 1001 misses and evicts. -/
theorem C8_cache_ttl_witness :
    (((SimpleCache.empty : SimpleCache Nat).set 0 "k" 7 1000).get 1000 "k").1 = some 7
  ∧ (((SimpleCache.empty : SimpleCache Nat).set 0 "k" 7 1000).get 1001 "k").1 = none
  ∧ (((SimpleCache.empty : SimpleCache Nat).set 0 "k" 7 1000).get 1001 "k").2.find? "k"
      = none
  ∧ (((SimpleCache.empty : SimpleCache Nat).set 0 "k" 7 1000).set 3 "k" 9 500).find? "k"
      = some ⟨9, 3 + 500⟩ := by
  refine ⟨?_, ?_, ?_, ?_⟩
  · have h := (C8_cache_ttl (SimpleCache.empty : SimpleCache Nat) "k" 7 0 1000 1000).1
    simpa using h
  · have h := (C8_cache_ttl (SimpleCache.empty : SimpleCache Nat) "k" 7 0 1001 1000).1
    simpa using h
  · exact (C8_cache_ttl (SimpleCache.empty : SimpleCache Nat) "k" 7 0 1001 1000).2.1
      (by decide)
  · exact (C8_cache_ttl (SimpleCache.empty : SimpleCache Nat) "k" 7 0 1001 1000).2.2.2
      9 500 3

/-! ## Cache and key lemmas -/

/-- Filtering out bindings of key `k` does not affect lookups of a different
key `k'`. -/
theorem find?_filter_keep {α : Type} (l : List (String × CacheEntry α)) (k k' : String)
    (h : ¬ k' = k) :
    (l.filter (fun e => e.fst != k)).find? (fun e => e.fst == k') =
      l.find? (fun e => e.fst == k') := by
  induction l with
  | nil => simp
  | cons e l ih =>
    by_cases he : e.fst = k
    · have h1 : (e.fst != k) = false := by simp [he]
      have h2 : (e.fst == k') = false := by
        refine beq_eq_false_iff_ne.mpr ?_
        rw [he]
        exact fun hh => h hh.symm
      simp [List.filter_cons, List.find?, h1, h2, ih]
    · have h1 : (e.fst != k) = true := by simp [he]
      cases hk : (e.fst == k') with
      | true => simp [List.filter_cons, List.find?, h1, hk]
      | false => simp [List.filter_cons, List.find?, h1, hk, ih]

/-- A `set` is immediately visible to `find?` on the same key. -/
theorem SimpleCache.find?_set_self {α : Type} (c : SimpleCache α) (now : Nat)
    (k : String) (v : α) (ttl : Nat) :
    (c.set now k v ttl).find? k = some ⟨v, now + ttl⟩ := by
  simp [SimpleCache.set, SimpleCache.find?, SimpleCache.eraseKey]

/-- A `set` leaves lookups of other keys unchanged. -/
theorem SimpleCache.find?_set_ne {α : Type} (c : SimpleCache α) (now : Nat)
    (k k' : String) (v : α) (ttl : Nat) (h : ¬ k' = k) :
    (c.set now k v ttl).find? k' = c.find? k' := by
  have hh : (k == k') = false :=
    beq_eq_false_iff_ne.mpr (fun hh => h hh.symm)
  simp only [SimpleCache.set, SimpleCache.find?, SimpleCache.eraseKey, List.find?, hh]
  rw [find?_filter_keep c.entries k k' h]

/-- A missing key makes `get` a no-op returning absent. -/
theorem SimpleCache.get_of_find?_none {α : Type} (c : SimpleCache α) (now : Nat)
    (k : String) (h : c.find? k = none) : c.get now k = (none, c) := by
  simp [SimpleCache.get, h]

/-- A fresh entry makes `get` return its value without touching the cache. -/
theorem SimpleCache.get_of_fresh {α : Type} (c : SimpleCache α) (now : Nat)
    (k : String) (e : CacheEntry α) (h : c.find? k = some e)
    (hexp : ¬ now > e.expiry) : c.get now k = (some e.value, c) := by
  simp [SimpleCache.get, h, hexp]

/-- Two strings that differ at a common character position stay different
under arbitrary suffixes — this is what keeps the operation-prefixed cache
keys of distinct operations from colliding. -/
theorem append_ne_of_differ_at (p q a b : String) (i : Nat) (cp cq : Char)
    (hp : p.data[i]? = some cp) (hq : q.data[i]? = some cq) (hne : ¬ cp = cq) :
    ¬ (p ++ a = q ++ b) := by
  intro h
  have hd : (p ++ a).data = (q ++ b).data := congrArg String.data h
  rw [String.data_append, String.data_append] at hd
  have hip : i < p.data.length := (List.getElem?_eq_some.mp hp).1
  have hiq : i < q.data.length := (List.getElem?_eq_some.mp hq).1
  have h1 : (p.data ++ a.data)[i]? = some cp := by
    rw [List.getElem?_append_left hip]; exact hp
  have h2 : (q.data ++ b.data)[i]? = some cq := by
    rw [List.getElem?_append_left hiq]; exact hq
  rw [hd] at h1
  rw [h1] at h2
  exact hne (Option.some.inj h2)

theorem price_key_ne_balances_key (y x : String) :
    ¬ ("token-price:" ++ y = "token-balances:" ++ x) :=
  append_ne_of_differ_at _ _ y x 6 'p' 'b' (by decide) (by decide) (by decide)

/-- Every member of an error list embeds into its comma-join. -/
theorem infix_joinComma (e : String) (l : List String) (h : e ∈ l) :
    e.data <:+: (joinComma l).data := by
  induction l with
  | nil => cases h
  | cons x xs ih =>
    cases xs with
    | nil =>
      have hex : e = x := by simpa using h
      subst hex
      simp [joinComma]
    | cons y ys =>
      rcases List.mem_cons.mp h with h1 | h2
      · subst h1
        refine List.IsPrefix.isInfix ?_
        show e.data <+: (e ++ ", " ++ joinComma (y :: ys)).data
        rw [String.data_append, String.data_append, List.append_assoc]
        exact List.prefix_append _ _
      · have hih := ih h2
        have hsuf : (joinComma (y :: ys)).data <:+
            (x ++ ", " ++ joinComma (y :: ys)).data := by
          rw [String.data_append]
          exact List.suffix_append _ _
        exact hih.trans hsuf.isInfix

/-- Membership in the accumulated failure strings of a provider list. -/
theorem mem_attemptErrs (cap : Provider → Option (String → Except String CVal))
    (arg : String) (l : List Provider) (q : Provider)
    (g : String → Except String CVal) (m : String)
    (hq : q ∈ l) (hg : cap q = some g) (hm : g arg = Except.error m) :
    (q.name ++ ": " ++ m) ∈ attemptErrs cap arg l := by
  rw [attemptErrs, List.mem_filterMap]
  exact ⟨q, hq, by simp [hg, hm]⟩

/-! ## Fallback-loop lemmas -/

/-- A capability-less provider is passed over silently. -/
theorem fallbackLoop_cons_none (now : Nat)
    (cap : Provider → Option (String → Except String CVal)) (key : String)
    (ttl : Nat) (failMsg arg : String) (q : Provider) (l : List Provider)
    (c : SimpleCache CVal) (errs trace : List String) (hnone : cap q = none) :
    fallbackLoop now cap key ttl failMsg arg (q :: l) c errs trace =
      fallbackLoop now cap key ttl failMsg arg l c errs trace := by
  simp [fallbackLoop, hnone]

/-- A failing provider adds its `name: message` string and the loop goes on. -/
theorem fallbackLoop_cons_fail (now : Nat)
    (cap : Provider → Option (String → Except String CVal)) (key : String)
    (ttl : Nat) (failMsg arg : String) (q : Provider) (l : List Provider)
    (c : SimpleCache CVal) (errs trace : List String)
    (g : String → Except String CVal) (m : String)
    (hg : cap q = some g) (hm : g arg = Except.error m) :
    fallbackLoop now cap key ttl failMsg arg (q :: l) c errs trace =
      fallbackLoop now cap key ttl failMsg arg l c
        (errs ++ [q.name ++ ": " ++ m]) (trace ++ [q.name]) := by
  simp [fallbackLoop, hg, hm]

/-- A succeeding provider ends the loop, writing the cache. -/
theorem fallbackLoop_cons_ok (now : Nat)
    (cap : Provider → Option (String → Except String CVal)) (key : String)
    (ttl : Nat) (failMsg arg : String) (q : Provider) (l : List Provider)
    (c : SimpleCache CVal) (errs trace : List String)
    (g : String → Except String CVal) (v : CVal)
    (hg : cap q = some g) (hv : g arg = Except.ok v) :
    fallbackLoop now cap key ttl failMsg arg (q :: l) c errs trace =
      ⟨.ok v, c.set now key v ttl, trace ++ [q.name]⟩ := by
  simp [fallbackLoop, hg, hv]

/-- A run over `pre ++ rest`, where every provider of `pre` is skipped or
fails, reduces to the run over `rest` with the failures and attempts of `pre`
accumulated — a single provider's failure never aborts the loop. -/
theorem fallbackLoop_skip (now : Nat)
    (cap : Provider → Option (String → Except String CVal)) (key : String)
    (ttl : Nat) (failMsg arg : String) (rest : List Provider) :
    ∀ (pre : List Provider), (∀ q ∈ pre, skipsOrFails cap arg q) →
    ∀ c errs trace,
      fallbackLoop now cap key ttl failMsg arg (pre ++ rest) c errs trace =
        fallbackLoop now cap key ttl failMsg arg rest c
          (errs ++ attemptErrs cap arg pre) (trace ++ attemptTrace cap pre) := by
  intro pre
  induction pre with
  | nil =>
    intro _ c errs trace
    simp [attemptErrs, attemptTrace]
  | cons q pre ih =>
    intro h c errs trace
    rcases h q (List.mem_cons_self q pre) with hnone | ⟨g, m, hg, hm⟩
    · rw [List.cons_append,
        fallbackLoop_cons_none now cap key ttl failMsg arg q _ c errs trace hnone,
        ih (fun q2 hq2 => h q2 (List.mem_cons_of_mem q hq2)) c errs trace]
      simp [attemptErrs, attemptTrace, hnone]
    · rw [List.cons_append,
        fallbackLoop_cons_fail now cap key ttl failMsg arg q _ c errs trace g m hg hm,
        ih (fun q2 hq2 => h q2 (List.mem_cons_of_mem q hq2)) _ _ _]
      simp [attemptErrs, attemptTrace, hg, hm, List.append_assoc]

/-- The first capable, succeeding provider ends the loop: its value is
returned and written to the cache, and nothing after it is invoked. -/
theorem fallbackLoop_first_success (now : Nat)
    (cap : Provider → Option (String → Except String CVal)) (key : String)
    (ttl : Nat) (failMsg arg : String) (pre : List Provider) (p : Provider)
    (post : List Provider) (f : String → Except String CVal) (v : CVal)
    (hpre : ∀ q ∈ pre, skipsOrFails cap arg q)
    (hp : cap p = some f) (hv : f arg = Except.ok v)
    (c : SimpleCache CVal) (errs trace : List String) :
    fallbackLoop now cap key ttl failMsg arg (pre ++ p :: post) c errs trace =
      ⟨.ok v, c.set now key v ttl, trace ++ (attemptTrace cap pre ++ [p.name])⟩ := by
  rw [fallbackLoop_skip now cap key ttl failMsg arg (p :: post) pre hpre c errs trace,
    fallbackLoop_cons_ok now cap key ttl failMsg arg p post c _ _ f v hp hv,
    List.append_assoc]

/-- An exhausted loop throws the combined error and leaves the cache alone. -/
theorem fallbackLoop_all_fail (now : Nat)
    (cap : Provider → Option (String → Except String CVal)) (key : String)
    (ttl : Nat) (failMsg arg : String) (l : List Provider)
    (h : ∀ q ∈ l, skipsOrFails cap arg q)
    (c : SimpleCache CVal) (errs trace : List String) :
    fallbackLoop now cap key ttl failMsg arg l c errs trace =
      ⟨.error (.failure (failMsg ++ joinComma (errs ++ attemptErrs cap arg l))), c,
       trace ++ attemptTrace cap l⟩ := by
  have hsc := fallbackLoop_skip now cap key ttl failMsg arg [] l h c errs trace
  rw [List.append_nil] at hsc
  rw [hsc]
  simp [fallbackLoop]

/-! ## Claim C6 — validation precedes everything -/

/-- Claim C6: for every syntactically invalid address or mint string, each of
the five public methods rejects with a `ValidationError` with the cache left
untouched and no provider invoked (empty trace) — validation precedes both
the cache read and the fallback loop. -/
theorem C6_invalid_input_rejected (providers : List Provider) (now : Nat)
    (cache : SimpleCache CVal) (a : String)
    (h : isValidSolanaAddress a = false) :
    getTokenPriceM providers now cache a =
      ⟨.error (.validation "Invalid token mint address" (some "mint")), cache, []⟩
  ∧ getTokenMetadataM providers now cache a =
      ⟨.error (.validation "Invalid token mint address" (some "mint")), cache, []⟩
  ∧ getTokenBalancesM providers now cache a =
      ⟨.error (.validation "Invalid wallet address" (some "address")), cache, []⟩
  ∧ getWalletPortfolioM providers now cache a =
      ⟨.error (.validation "Invalid wallet address" (some "address")), cache, []⟩
  ∧ getTokenDataM providers now cache a =
      ⟨.error (.validation "Invalid token mint address" (some "mint")), cache, []⟩ := by
  refine ⟨?_, ?_, ?_, ?_, ?_⟩ <;>
    simp [getTokenPriceM, getTokenMetadataM, getTokenBalancesM, getWalletPortfolioM,
      getTokenDataM, h]

/-- Witness for C6 on the concrete invalid string "not-a-valid-address". -/
theorem C6_invalid_input_rejected_witness :
    isValidSolanaAddress "not-a-valid-address" = false
  ∧ (getTokenPriceM [provDelta] 0 SimpleCache.empty "not-a-valid-address" =
      ⟨.error (.validation "Invalid token mint address" (some "mint")),
       SimpleCache.empty, []⟩
    ∧ getTokenMetadataM [provDelta] 0 SimpleCache.empty "not-a-valid-address" =
      ⟨.error (.validation "Invalid token mint address" (some "mint")),
       SimpleCache.empty, []⟩
    ∧ getTokenBalancesM [provDelta] 0 SimpleCache.empty "not-a-valid-address" =
      ⟨.error (.validation "Invalid wallet address" (some "address")),
       SimpleCache.empty, []⟩
    ∧ getWalletPortfolioM [provDelta] 0 SimpleCache.empty "not-a-valid-address" =
      ⟨.error (.validation "Invalid wallet address" (some "address")),
       SimpleCache.empty, []⟩
    ∧ getTokenDataM [provDelta] 0 SimpleCache.empty "not-a-valid-address" =
      ⟨.error (.validation "Invalid token mint address" (some "mint")),
       SimpleCache.empty, []⟩) :=
  ⟨by decide,
   C6_invalid_input_rejected [provDelta] 0 SimpleCache.empty "not-a-valid-address"
     (by decide)⟩

/-! ## Claim C7 — cache hits short-circuit the providers -/

/-- Claim C7: a valid mint whose `token-price:<mint>` entry is present and
not expired is answered from the cache: the cached value is returned
unchanged, the cache is untouched, and no provider is invoked. -/
theorem C7_cache_hit_short_circuits (s : TokenService) (now : Nat) (mint : String)
    (e : CacheEntry CVal) (hv : isValidSolanaAddress mint = true)
    (hfind : s.cache.find? ("token-price:" ++ mint) = some e)
    (hfresh : ¬ now > e.expiry) :
    s.getTokenPrice now mint = ⟨.ok e.value, s.cache, []⟩ := by
  simp [TokenService.getTokenPrice, getTokenPriceM, hv, SimpleCache.get, hfind, hfresh]

/-- Witness for C7: the seeded service returns the seeded price at t=100. -/
theorem C7_cache_hit_short_circuits_witness :
    isValidSolanaAddress USDC_MINT = true
  ∧ svcC7.cache.find? ("token-price:" ++ USDC_MINT) =
      some ⟨.price samplePrice, 1050⟩
  ∧ svcC7.getTokenPrice 100 USDC_MINT = ⟨.ok (.price samplePrice), svcC7.cache, []⟩ :=
  ⟨by decide, by decide,
   C7_cache_hit_short_circuits svcC7 100 USDC_MINT ⟨.price samplePrice, 1050⟩
     (by decide) (by decide) (by decide)⟩

/-! ## Claim C5 — total failure aggregates every provider's error -/

/-- Claim C5: when, on a cache miss for a valid mint, every configured
provider fails `getTokenPrice`, the method throws a single error whose
message is the concatenation of every attempted provider's `name: message`
string — in particular it contains, for each provider, that provider's name
together with its individual failure message. -/
theorem C5_total_failure_error_lists_all (providers : List Provider) (now : Nat)
    (cache : SimpleCache CVal) (mint : String)
    (hv : isValidSolanaAddress mint = true)
    (hmiss : cache.find? ("token-price:" ++ mint) = none)
    (hfail : ∀ q ∈ providers, ∃ g m, q.getTokenPrice = some g ∧
      g mint = Except.error m) :
    getTokenPriceM providers now cache mint =
      ⟨.error (.failure ("Failed to get token price for " ++ mint ++ ": " ++
          joinComma (attemptErrs capPrice mint providers))), cache,
       attemptTrace capPrice providers⟩
  ∧ ∀ q g m, q ∈ providers → q.getTokenPrice = some g →
      g mint = Except.error m →
      (q.name ++ ": " ++ m).data <:+:
        ("Failed to get token price for " ++ mint ++ ": " ++
          joinComma (attemptErrs capPrice mint providers)).data := by
  constructor
  · have hsk : ∀ q ∈ providers, skipsOrFails capPrice mint q := by
      intro q hq
      obtain ⟨g, m, hg, hm⟩ := hfail q hq
      exact Or.inr ⟨fun x => (g x).map CVal.price, m, by simp [capPrice, hg],
        by simp [hm, Except.map]⟩
    have hloop := fallbackLoop_all_fail now capPrice ("token-price:" ++ mint)
      PRICE_CACHE_TTL ("Failed to get token price for " ++ mint ++ ": ") mint
      providers hsk cache [] []
    simp only [getTokenPriceM, hv, if_true,
      SimpleCache.get_of_find?_none cache now _ hmiss]
    simpa using hloop
  · intro q g m hq hg hm
    have hmem : (q.name ++ ": " ++ m) ∈ attemptErrs capPrice mint providers :=
      mem_attemptErrs capPrice mint providers q (fun x => (g x).map CVal.price) m hq
        (by simp [capPrice, hg]) (by simp [hm, Except.map])
    have hinf := infix_joinComma (q.name ++ ": " ++ m) _ hmem
    rw [String.data_append]
    exact hinf.trans (List.suffix_append _ _).isInfix

/-- Witness for C5: both configured providers fail with distinct reasons and
both `name: reason` strings appear in the thrown message. -/
theorem C5_total_failure_error_lists_all_witness :
    isValidSolanaAddress USDC_MINT = true
  ∧ (SimpleCache.empty : SimpleCache CVal).find? ("token-price:" ++ USDC_MINT) = none
  ∧ getTokenPriceM [provFailOne, provFailTwo] 0 SimpleCache.empty USDC_MINT =
      ⟨.error (.failure ("Failed to get token price for " ++ USDC_MINT ++ ": " ++
          joinComma (attemptErrs capPrice USDC_MINT [provFailOne, provFailTwo]))),
       SimpleCache.empty, attemptTrace capPrice [provFailOne, provFailTwo]⟩
  ∧ ("one: rate limited").data <:+:
      ("Failed to get token price for " ++ USDC_MINT ++ ": " ++
        joinComma (attemptErrs capPrice USDC_MINT [provFailOne, provFailTwo])).data
  ∧ ("two: not listed").data <:+:
      ("Failed to get token price for " ++ USDC_MINT ++ ": " ++
        joinComma (attemptErrs capPrice USDC_MINT [provFailOne, provFailTwo])).data := by
  have hfail : ∀ q ∈ [provFailOne, provFailTwo],
      ∃ g m, q.getTokenPrice = some g ∧ g USDC_MINT = Except.error m := by
    intro q hq
    rcases List.mem_cons.mp hq with h1 | h2
    · subst h1; exact ⟨_, "rate limited", rfl, rfl⟩
    · rcases List.mem_cons.mp h2 with h3 | h4
      · subst h3; exact ⟨_, "not listed", rfl, rfl⟩
      · cases h4
  have h := C5_total_failure_error_lists_all [provFailOne, provFailTwo] 0
    SimpleCache.empty USDC_MINT (by decide) (by decide) hfail
  refine ⟨by decide, by decide, h.1, ?_, ?_⟩
  · exact h.2 provFailOne _ "rate limited" (by simp) rfl rfl
  · exact h.2 provFailTwo _ "not listed" (by simp) rfl rfl

/-! ## Claim C1 — priority-ordered fallback, first success wins -/

/-- Claim C1: the constructor's provider list is sorted ascending by priority
(and is a permutation of the configured providers); on a cache miss for a
valid mint, `getTokenPrice` walks that order, silently skipping providers
without the `getTokenPrice` capability, surviving each provider failure, and
stopping at the first success, whose result is cached and returned — the
trace shows exactly the capable providers up to and including the first
success, so no later provider is invoked. -/
theorem C1_priority_fallback_first_success (cfg pre post : List Provider)
    (p : Provider) (g : String → Except String TokenPrice) (v : TokenPrice)
    (mint : String) (now : Nat) (cache : SimpleCache CVal)
    (hv : isValidSolanaAddress mint = true)
    (hmiss : cache.find? ("token-price:" ++ mint) = none)
    (hdec : sortByPriority cfg = pre ++ p :: post)
    (hpre : ∀ q ∈ pre, skipsOrFails capPrice mint q)
    (hp : p.getTokenPrice = some g) (hok : g mint = Except.ok v) :
    List.Pairwise (fun a b => a.priority ≤ b.priority) (sortByPriority cfg)
  ∧ List.Perm (sortByPriority cfg) cfg
  ∧ getTokenPriceM (sortByPriority cfg) now cache mint =
      ⟨.ok (.price v),
       cache.set now ("token-price:" ++ mint) (.price v) PRICE_CACHE_TTL,
       attemptTrace capPrice pre ++ [p.name]⟩ := by
  refine ⟨List.sorted_insertionSort provLe cfg, List.perm_insertionSort provLe cfg, ?_⟩
  rw [hdec]
  have hloop := fallbackLoop_first_success now capPrice ("token-price:" ++ mint)
    PRICE_CACHE_TTL ("Failed to get token price for " ++ mint ++ ": ") mint
    pre p post (fun x => (g x).map CVal.price) (.price v) hpre
    (by simp [capPrice, hp]) (by simp [hok, Except.map]) cache [] []
  simp only [getTokenPriceM, hv, if_true,
    SimpleCache.get_of_find?_none cache now _ hmiss]
  simpa using hloop

/-- Witness for C1: configured out of order, the service sorts beta(1),
alpha(2), gamma(3), delta(4); beta lacks the price capability and is skipped,
alpha fails, gamma succeeds and is returned, delta is never reached. -/
theorem C1_priority_fallback_first_success_witness :
    sortByPriority [provGamma, provAlpha, provBeta, provDelta] =
      [provBeta, provAlpha] ++ provGamma :: [provDelta]
  ∧ (List.Pairwise (fun a b => a.priority ≤ b.priority)
      (sortByPriority [provGamma, provAlpha, provBeta, provDelta])
    ∧ List.Perm (sortByPriority [provGamma, provAlpha, provBeta, provDelta])
        [provGamma, provAlpha, provBeta, provDelta]
    ∧ getTokenPriceM (sortByPriority [provGamma, provAlpha, provBeta, provDelta]) 0
        SimpleCache.empty USDC_MINT =
      ⟨.ok (.price samplePrice),
       SimpleCache.empty.set 0 ("token-price:" ++ USDC_MINT) (.price samplePrice)
         PRICE_CACHE_TTL,
       attemptTrace capPrice [provBeta, provAlpha] ++ [provGamma.name]⟩) := by
  have hpre : ∀ q ∈ [provBeta, provAlpha], skipsOrFails capPrice USDC_MINT q := by
    intro q hq
    rcases List.mem_cons.mp hq with h1 | h2
    · subst h1; exact Or.inl rfl
    · rcases List.mem_cons.mp h2 with h3 | h4
      · subst h3; exact Or.inr ⟨_, "boom", rfl, rfl⟩
      · cases h4
  exact ⟨rfl,
    C1_priority_fallback_first_success [provGamma, provAlpha, provBeta, provDelta]
      [provBeta, provAlpha] [provDelta] provGamma _ samplePrice USDC_MINT 0
      SimpleCache.empty (by decide) (by decide) rfl hpre rfl rfl⟩

/-! ## Price-enrichment neutrality when no price data is obtainable -/

theorem price_key_ne_metadata_key (y x : String) :
    ¬ ("token-price:" ++ y = "token-metadata:" ++ x) :=
  append_ne_of_differ_at _ _ y x 6 'p' 'm' (by decide) (by decide) (by decide)

/-- With no provider exposing `getTokenPrice` and no cached price, a
`getTokenPrice` call fails without touching the cache or any provider. -/
theorem getTokenPriceM_unavailable (providers : List Provider) (now : Nat)
    (cache : SimpleCache CVal) (m : String)
    (hcap : ∀ q ∈ providers, q.getTokenPrice = none)
    (hmiss : cache.find? ("token-price:" ++ m) = none) :
    ∃ e, getTokenPriceM providers now cache m = ⟨.error e, cache, []⟩ := by
  by_cases hv : isValidSolanaAddress m = true
  · have hsk : ∀ q ∈ providers, skipsOrFails capPrice m q := fun q hq =>
      Or.inl (by simp [capPrice, hcap q hq])
    have hloop := fallbackLoop_all_fail now capPrice ("token-price:" ++ m)
      PRICE_CACHE_TTL ("Failed to get token price for " ++ m ++ ": ") m providers
      hsk cache [] []
    have htr : attemptTrace capPrice providers = [] := by
      rw [attemptTrace, List.filterMap_eq_nil_iff]
      intro q hq
      simp [capPrice, hcap q hq]
    refine ⟨.failure ("Failed to get token price for " ++ m ++ ": " ++
      joinComma (attemptErrs capPrice m providers)), ?_⟩
    simp only [getTokenPriceM, hv, if_true,
      SimpleCache.get_of_find?_none cache now _ hmiss]
    rw [hloop, htr]
    simp
  · exact ⟨.validation "Invalid token mint address" (some "mint"),
      by simp [getTokenPriceM, hv]⟩

/-- Token enrichment is the identity when no price data is obtainable. -/
theorem enrichToken_unavailable (providers : List Provider) (now : Nat)
    (cache : SimpleCache CVal) (t : TokenBalance)
    (hcap : ∀ q ∈ providers, q.getTokenPrice = none)
    (hmiss : cache.find? ("token-price:" ++ t.mint) = none) :
    enrichToken providers now cache t = (t, 0, cache, []) := by
  obtain ⟨e, he⟩ := getTokenPriceM_unavailable providers now cache t.mint hcap hmiss
  simp [enrichToken, he]

theorem enrichTokenList_unavailable (providers : List Provider) (now : Nat)
    (ts : List TokenBalance) (cache : SimpleCache CVal)
    (hcap : ∀ q ∈ providers, q.getTokenPrice = none)
    (hmiss : ∀ m, cache.find? ("token-price:" ++ m) = none) :
    enrichTokenList providers now ts cache = (ts, 0, cache, []) := by
  induction ts with
  | nil => simp [enrichTokenList]
  | cons t ts ih =>
    have h1 := enrichToken_unavailable providers now cache t hcap (hmiss t.mint)
    simp [enrichTokenList, h1, ih]

/-- Portfolio enrichment only recomputes `totalValueUsd` (to 0) when no price
data is obtainable. -/
theorem enrichPortfolioWithPrices_unavailable (providers : List Provider)
    (now : Nat) (w : WalletPortfolio) (cache : SimpleCache CVal)
    (hcap : ∀ q ∈ providers, q.getTokenPrice = none)
    (hmiss : ∀ m, cache.find? ("token-price:" ++ m) = none) :
    enrichPortfolioWithPrices providers now w cache =
      ({ w with totalValueUsd := some 0 }, cache, []) := by
  obtain ⟨e, he⟩ := getTokenPriceM_unavailable providers now cache SOL_MINT hcap
    (hmiss SOL_MINT)
  have h2 := enrichTokenList_unavailable providers now w.tokens cache hcap hmiss
  simp [enrichPortfolioWithPrices, getSolPriceM, he, h2]

/-! ## Portfolio-loop lemmas -/

theorem portfolioLoop_cons_none (providers : List Provider) (now : Nat)
    (addr : String) (q : Provider) (l : List Provider) (c : SimpleCache CVal)
    (errs trace : List String) (hnone : q.getWalletPortfolio = none) :
    portfolioLoop providers now addr (q :: l) c errs trace =
      portfolioLoop providers now addr l c errs trace := by
  simp [portfolioLoop, hnone]

theorem portfolioLoop_cons_fail (providers : List Provider) (now : Nat)
    (addr : String) (q : Provider) (l : List Provider) (c : SimpleCache CVal)
    (errs trace : List String) (g : String → Except String WalletPortfolio)
    (m : String) (hg : q.getWalletPortfolio = some g)
    (hm : g addr = Except.error m) :
    portfolioLoop providers now addr (q :: l) c errs trace =
      portfolioLoop providers now addr l c
        (errs ++ [q.name ++ ": " ++ m]) (trace ++ [q.name]) := by
  simp [portfolioLoop, hg, hm]

/-- The portfolio loop passes over a wholly skipped-or-failing section,
accumulating its failures and attempts. -/
theorem portfolioLoop_skip (providers : List Provider) (now : Nat) (addr : String)
    (rest : List Provider) :
    ∀ (pre : List Provider),
      (∀ q ∈ pre, q.getWalletPortfolio = none ∨
        ∃ g m, q.getWalletPortfolio = some g ∧ g addr = Except.error m) →
    ∀ c errs trace,
      portfolioLoop providers now addr (pre ++ rest) c errs trace =
        portfolioLoop providers now addr rest c
          (errs ++ portfolioAttemptErrs addr pre)
          (trace ++ portfolioAttemptTrace pre) := by
  intro pre
  induction pre with
  | nil =>
    intro _ c errs trace
    simp [portfolioAttemptErrs, portfolioAttemptTrace]
  | cons q pre ih =>
    intro h c errs trace
    rcases h q (List.mem_cons_self q pre) with hnone | ⟨g, m, hg, hm⟩
    · rw [List.cons_append,
        portfolioLoop_cons_none providers now addr q _ c errs trace hnone,
        ih (fun q2 hq2 => h q2 (List.mem_cons_of_mem q hq2)) c errs trace]
      simp [portfolioAttemptErrs, portfolioAttemptTrace, hnone]
    · rw [List.cons_append,
        portfolioLoop_cons_fail providers now addr q _ c errs trace g m hg hm,
        ih (fun q2 hq2 => h q2 (List.mem_cons_of_mem q hq2)) _ _ _]
      simp [portfolioAttemptErrs, portfolioAttemptTrace, hg, hm, List.append_assoc]

/-! ## Claim C9 — degraded portfolio reconstruction -/

/-- Claim C9: when, on a cache miss for a valid address, every provider's
direct `getWalletPortfolio` attempt fails (or the capability is absent) — in
a configuration where no price data is obtainable, so enrichment leaves the
tokens untouched — then (a) if the `getTokenBalances` fallback succeeds with
`bs`, the method returns and caches a portfolio with `solBalance = 0` and
`tokens = bs`; and (b) if the balances fallback also fails, the thrown error
combines the portfolio loop's failures with the balances failure under the
`fallback:` marker. -/
theorem C9_degraded_portfolio_reconstruction (providers : List Provider)
    (now : Nat) (cache : SimpleCache CVal) (addr : String)
    (hv : isValidSolanaAddress addr = true)
    (hpmiss : cache.find? ("wallet-portfolio:" ++ addr) = none)
    (hport : ∀ q ∈ providers, q.getWalletPortfolio = none ∨
      ∃ g m, q.getWalletPortfolio = some g ∧ g addr = Except.error m)
    (hnoprice : ∀ q ∈ providers, q.getTokenPrice = none)
    (hpricemiss : ∀ m, cache.find? ("token-price:" ++ m) = none) :
    (∀ bpre b bpost gb bs,
        providers = bpre ++ b :: bpost →
        (∀ q ∈ bpre, skipsOrFails capBalances addr q) →
        b.getTokenBalances = some gb → gb addr = Except.ok bs →
        cache.find? ("token-balances:" ++ addr) = none →
        getWalletPortfolioM providers now cache addr =
          ⟨.ok (.portfolio { address := addr, solBalance := 0, tokens := bs,
                             totalValueUsd := some 0 }),
           (cache.set now ("token-balances:" ++ addr) (.balances bs)
              DEFAULT_CACHE_TTL).set now ("wallet-portfolio:" ++ addr)
              (.portfolio { address := addr, solBalance := 0, tokens := bs,
                            totalValueUsd := some 0 }) DEFAULT_CACHE_TTL,
           portfolioAttemptTrace providers ++
             (attemptTrace capBalances bpre ++ [b.name])⟩)
  ∧ ((∀ q ∈ providers, skipsOrFails capBalances addr q) →
      cache.find? ("token-balances:" ++ addr) = none →
      getWalletPortfolioM providers now cache addr =
        ⟨.error (.failure ("Failed to get wallet portfolio for " ++ addr ++ ": " ++
            joinComma (portfolioAttemptErrs addr providers ++
              ["fallback: " ++ ("Failed to get token balances for " ++ addr ++
                ": " ++ joinComma (attemptErrs capBalances addr providers))]))),
         cache,
         portfolioAttemptTrace providers ++ attemptTrace capBalances providers⟩) := by
  have hval : getWalletPortfolioM providers now cache addr =
      portfolioLoop providers now addr [] cache
        (portfolioAttemptErrs addr providers) (portfolioAttemptTrace providers) := by
    have hsc := portfolioLoop_skip providers now addr [] providers hport cache [] []
    rw [List.append_nil] at hsc
    simp only [getWalletPortfolioM, hv, if_true,
      SimpleCache.get_of_find?_none cache now _ hpmiss, hsc, List.nil_append]
  constructor
  · intro bpre b bpost gb bs hdecB hbpre hgb hbs hbmiss
    have hbal : getTokenBalancesM providers now cache addr =
        ⟨.ok (.balances bs),
         cache.set now ("token-balances:" ++ addr) (.balances bs)
           DEFAULT_CACHE_TTL,
         attemptTrace capBalances bpre ++ [b.name]⟩ := by
      have hloop := fallbackLoop_first_success now capBalances
        ("token-balances:" ++ addr) DEFAULT_CACHE_TTL
        ("Failed to get token balances for " ++ addr ++ ": ") addr bpre b bpost
        (fun x => (gb x).map CVal.balances) (.balances bs) hbpre
        (by simp [capBalances, hgb]) (by simp [hbs, Except.map]) cache [] []
      rw [← hdecB] at hloop
      simp only [getTokenBalancesM, hv, if_true,
        SimpleCache.get_of_find?_none cache now _ hbmiss]
      simpa using hloop
    have hmiss1 : ∀ m, (cache.set now ("token-balances:" ++ addr) (.balances bs)
        DEFAULT_CACHE_TTL).find? ("token-price:" ++ m) = none := by
      intro m
      rw [SimpleCache.find?_set_ne _ _ _ _ _ _ (price_key_ne_balances_key m addr)]
      exact hpricemiss m
    have henr := enrichPortfolioWithPrices_unavailable providers now
      { address := addr, solBalance := 0, tokens := bs, totalValueUsd := some 0 }
      (cache.set now ("token-balances:" ++ addr) (.balances bs) DEFAULT_CACHE_TTL)
      hnoprice hmiss1
    rw [hval]
    simp only [portfolioLoop, hbal, cvBalances, henr]
    simp
  · intro hballfail hbmiss
    have hbal : getTokenBalancesM providers now cache addr =
        ⟨.error (.failure ("Failed to get token balances for " ++ addr ++ ": " ++
            joinComma (attemptErrs capBalances addr providers))),
         cache, attemptTrace capBalances providers⟩ := by
      have hloop := fallbackLoop_all_fail now capBalances
        ("token-balances:" ++ addr) DEFAULT_CACHE_TTL
        ("Failed to get token balances for " ++ addr ++ ": ") addr providers
        hballfail cache [] []
      simp only [getTokenBalancesM, hv, if_true,
        SimpleCache.get_of_find?_none cache now _ hbmiss]
      simpa using hloop
    rw [hval]
    simp only [portfolioLoop, hbal]
    simp [SvcError.message, List.append_assoc]

/-- Witness for C9 on both branches: one fixture whose balances provider
succeeds (yielding the `solBalance = 0` portfolio over those balances) and
one whose balances provider also fails (yielding the combined error). -/
theorem C9_degraded_portfolio_reconstruction_witness :
    getWalletPortfolioM [provC9noport, provC9bal] 7 SimpleCache.empty USDC_MINT =
      ⟨.ok (.portfolio { address := USDC_MINT, solBalance := 0, tokens := balC9,
                         totalValueUsd := some 0 }),
       (SimpleCache.empty.set 7 ("token-balances:" ++ USDC_MINT) (.balances balC9)
          DEFAULT_CACHE_TTL).set 7 ("wallet-portfolio:" ++ USDC_MINT)
          (.portfolio { address := USDC_MINT, solBalance := 0, tokens := balC9,
                        totalValueUsd := some 0 }) DEFAULT_CACHE_TTL,
       portfolioAttemptTrace [provC9noport, provC9bal] ++
         (attemptTrace capBalances [provC9noport] ++ [provC9bal.name])⟩
  ∧ getWalletPortfolioM [provC9noport, provC9balFail] 7 SimpleCache.empty USDC_MINT =
      ⟨.error (.failure ("Failed to get wallet portfolio for " ++ USDC_MINT ++
          ": " ++ joinComma (portfolioAttemptErrs USDC_MINT
              [provC9noport, provC9balFail] ++
            ["fallback: " ++ ("Failed to get token balances for " ++ USDC_MINT ++
              ": " ++ joinComma (attemptErrs capBalances USDC_MINT
                [provC9noport, provC9balFail]))]))),
       SimpleCache.empty,
       portfolioAttemptTrace [provC9noport, provC9balFail] ++
         attemptTrace capBalances [provC9noport, provC9balFail]⟩ := by
  constructor
  · have hport : ∀ q ∈ [provC9noport, provC9bal], q.getWalletPortfolio = none ∨
        ∃ g m, q.getWalletPortfolio = some g ∧ g USDC_MINT = Except.error m := by
      intro q hq
      rcases List.mem_cons.mp hq with h1 | h2
      · subst h1; exact Or.inr ⟨_, "http 500", rfl, rfl⟩
      · rcases List.mem_cons.mp h2 with h3 | h4
        · subst h3; exact Or.inr ⟨_, "portfolio endpoint gone", rfl, rfl⟩
        · cases h4
    have hnoprice : ∀ q ∈ [provC9noport, provC9bal], q.getTokenPrice = none := by
      intro q hq
      rcases List.mem_cons.mp hq with h1 | h2
      · subst h1; rfl
      · rcases List.mem_cons.mp h2 with h3 | h4
        · subst h3; rfl
        · cases h4
    have hbpre : ∀ q ∈ [provC9noport], skipsOrFails capBalances USDC_MINT q := by
      intro q hq
      rcases List.mem_cons.mp hq with h1 | h2
      · subst h1; exact Or.inl rfl
      · cases h2
    exact (C9_degraded_portfolio_reconstruction [provC9noport, provC9bal] 7
      SimpleCache.empty USDC_MINT (by decide) (by decide) hport hnoprice
      (fun m => rfl)).1 [provC9noport] provC9bal [] _ balC9 rfl hbpre rfl rfl
      (by decide)
  · have hport : ∀ q ∈ [provC9noport, provC9balFail], q.getWalletPortfolio = none ∨
        ∃ g m, q.getWalletPortfolio = some g ∧ g USDC_MINT = Except.error m := by
      intro q hq
      rcases List.mem_cons.mp hq with h1 | h2
      · subst h1; exact Or.inr ⟨_, "http 500", rfl, rfl⟩
      · rcases List.mem_cons.mp h2 with h3 | h4
        · subst h3; exact Or.inr ⟨_, "portfolio endpoint gone", rfl, rfl⟩
        · cases h4
    have hnoprice : ∀ q ∈ [provC9noport, provC9balFail], q.getTokenPrice = none := by
      intro q hq
      rcases List.mem_cons.mp hq with h1 | h2
      · subst h1; rfl
      · rcases List.mem_cons.mp h2 with h3 | h4
        · subst h3; rfl
        · cases h4
    have hballfail : ∀ q ∈ [provC9noport, provC9balFail],
        skipsOrFails capBalances USDC_MINT q := by
      intro q hq
      rcases List.mem_cons.mp hq with h1 | h2
      · subst h1; exact Or.inl rfl
      · rcases List.mem_cons.mp h2 with h3 | h4
        · subst h3
          exact Or.inr ⟨_, "balances down", rfl, rfl⟩
        · cases h4
    exact (C9_degraded_portfolio_reconstruction [provC9noport, provC9balFail] 7
      SimpleCache.empty USDC_MINT (by decide) (by decide) hport hnoprice
      (fun m => rfl)).2 hballfail (by decide)

/-! ## Claim C10 — getTokenData degrades and caches the degraded value -/

/-- Claim C10: on a cache miss for a valid mint, (a) if every provider fails
metadata but some provider returns a price `v`, `getTokenData` resolves with
the placeholder metadata carrying `v`'s price fields and caches it under
`token-data:<mint>` with the short price TTL; (b) vice versa, if metadata
succeeds with `mi` but every provider fails the price, it resolves with `mi`
whose price fields are absent, cached the same way; and (c) any fresh
`token-data:<mint>` entry makes a subsequent `getTokenData` return that
cached value with no provider contacted — so within the TTL the degraded
value keeps being served from the cache. -/
theorem C10_token_data_degraded (providers : List Provider) (now : Nat)
    (cache : SimpleCache CVal) (mint : String)
    (hv : isValidSolanaAddress mint = true)
    (hdmiss : cache.find? ("token-data:" ++ mint) = none)
    (hmmiss : cache.find? ("token-metadata:" ++ mint) = none)
    (hpmiss : cache.find? ("token-price:" ++ mint) = none) :
    (∀ ppre p ppost gp v, providers = ppre ++ p :: ppost →
       (∀ q ∈ providers, skipsOrFails capMetadata mint q) →
       (∀ q ∈ ppre, skipsOrFails capPrice mint q) →
       p.getTokenPrice = some gp → gp mint = Except.ok v →
       getTokenDataM providers now cache mint =
         ⟨.ok (.info (degradedInfo mint v)),
          (cache.set now ("token-price:" ++ mint) (.price v)
             PRICE_CACHE_TTL).set now ("token-data:" ++ mint)
             (.info (degradedInfo mint v)) PRICE_CACHE_TTL,
          attemptTrace capMetadata providers ++
            (attemptTrace capPrice ppre ++ [p.name])⟩)
  ∧ (∀ mpre pm mpost gm mi, providers = mpre ++ pm :: mpost →
       (∀ q ∈ mpre, skipsOrFails capMetadata mint q) →
       pm.getTokenMetadata = some gm → gm mint = Except.ok mi →
       (∀ q ∈ providers, skipsOrFails capPrice mint q) →
       getTokenDataM providers now cache mint =
         ⟨.ok (.info { mi with priceUsd := none,
                               priceChangePercentage24h := none }),
          (cache.set now ("token-metadata:" ++ mint) (.info mi)
             DEFAULT_CACHE_TTL).set now ("token-data:" ++ mint)
             (.info { mi with priceUsd := none,
                              priceChangePercentage24h := none }) PRICE_CACHE_TTL,
          (attemptTrace capMetadata mpre ++ [pm.name]) ++
            attemptTrace capPrice providers⟩)
  ∧ (∀ (d : TokenInfo) (c : SimpleCache CVal) (t exp : Nat),
       c.find? ("token-data:" ++ mint) = some ⟨.info d, exp⟩ → ¬ t > exp →
       getTokenDataM providers t c mint = ⟨.ok (.info d), c, []⟩) := by
  refine ⟨?_, ?_, ?_⟩
  · intro ppre p ppost gp v hdecP hmfail hppre hgp hgpv
    have hmeta : getTokenMetadataM providers now cache mint =
        ⟨.error (.failure ("Failed to get token metadata for " ++ mint ++ ": " ++
            joinComma (attemptErrs capMetadata mint providers))),
         cache, attemptTrace capMetadata providers⟩ := by
      have hloop := fallbackLoop_all_fail now capMetadata
        ("token-metadata:" ++ mint) DEFAULT_CACHE_TTL
        ("Failed to get token metadata for " ++ mint ++ ": ") mint providers
        hmfail cache [] []
      simp only [getTokenMetadataM, hv, if_true,
        SimpleCache.get_of_find?_none cache now _ hmmiss]
      simpa using hloop
    have hprice : getTokenPriceM providers now cache mint =
        ⟨.ok (.price v),
         cache.set now ("token-price:" ++ mint) (.price v) PRICE_CACHE_TTL,
         attemptTrace capPrice ppre ++ [p.name]⟩ := by
      have hloop := fallbackLoop_first_success now capPrice
        ("token-price:" ++ mint) PRICE_CACHE_TTL
        ("Failed to get token price for " ++ mint ++ ": ") mint ppre p ppost
        (fun x => (gp x).map CVal.price) (.price v) hppre
        (by simp [capPrice, hgp]) (by simp [hgpv, Except.map]) cache [] []
      rw [← hdecP] at hloop
      simp only [getTokenPriceM, hv, if_true,
        SimpleCache.get_of_find?_none cache now _ hpmiss]
      simpa using hloop
    simp only [getTokenDataM, hv, if_true,
      SimpleCache.get_of_find?_none cache now _ hdmiss, hmeta, hprice]
    simp [degradedInfo, cvPrice]
  · intro mpre pm mpost gm mi hdecM hmpre hgm hgmv hpfail
    have hmeta : getTokenMetadataM providers now cache mint =
        ⟨.ok (.info mi),
         cache.set now ("token-metadata:" ++ mint) (.info mi) DEFAULT_CACHE_TTL,
         attemptTrace capMetadata mpre ++ [pm.name]⟩ := by
      have hloop := fallbackLoop_first_success now capMetadata
        ("token-metadata:" ++ mint) DEFAULT_CACHE_TTL
        ("Failed to get token metadata for " ++ mint ++ ": ") mint mpre pm mpost
        (fun x => (gm x).map CVal.info) (.info mi) hmpre
        (by simp [capMetadata, hgm]) (by simp [hgmv, Except.map]) cache [] []
      rw [← hdecM] at hloop
      simp only [getTokenMetadataM, hv, if_true,
        SimpleCache.get_of_find?_none cache now _ hmmiss]
      simpa using hloop
    have hpmiss1 : (cache.set now ("token-metadata:" ++ mint) (.info mi)
        DEFAULT_CACHE_TTL).find? ("token-price:" ++ mint) = none := by
      rw [SimpleCache.find?_set_ne _ _ _ _ _ _ (price_key_ne_metadata_key mint mint)]
      exact hpmiss
    have hprice : getTokenPriceM providers now
        (cache.set now ("token-metadata:" ++ mint) (.info mi) DEFAULT_CACHE_TTL)
        mint =
        ⟨.error (.failure ("Failed to get token price for " ++ mint ++ ": " ++
            joinComma (attemptErrs capPrice mint providers))),
         cache.set now ("token-metadata:" ++ mint) (.info mi) DEFAULT_CACHE_TTL,
         attemptTrace capPrice providers⟩ := by
      have hloop := fallbackLoop_all_fail now capPrice ("token-price:" ++ mint)
        PRICE_CACHE_TTL ("Failed to get token price for " ++ mint ++ ": ") mint
        providers hpfail
        (cache.set now ("token-metadata:" ++ mint) (.info mi) DEFAULT_CACHE_TTL)
        [] []
      simp only [getTokenPriceM, hv, if_true,
        SimpleCache.get_of_find?_none _ now _ hpmiss1]
      simpa using hloop
    simp only [getTokenDataM, hv, if_true,
      SimpleCache.get_of_find?_none cache now _ hdmiss, hmeta, hprice]
    simp [cvInfo]
  · intro d c t exp hfind hfresh
    simp [getTokenDataM, hv, SimpleCache.get, hfind, hfresh]

/-- Witness for C10: provGamma alone fails metadata but supplies a price
(degraded result cached under the price TTL); provC10meta alone supplies
metadata but fails the price; and the cached degraded value is returned
unchanged, with no provider contact, at the very end of its TTL. -/
theorem C10_token_data_degraded_witness :
    getTokenDataM [provGamma] 0 SimpleCache.empty USDC_MINT =
      ⟨.ok (.info (degradedInfo USDC_MINT samplePrice)),
       (SimpleCache.empty.set 0 ("token-price:" ++ USDC_MINT) (.price samplePrice)
          PRICE_CACHE_TTL).set 0 ("token-data:" ++ USDC_MINT)
          (.info (degradedInfo USDC_MINT samplePrice)) PRICE_CACHE_TTL,
       attemptTrace capMetadata [provGamma] ++
         (attemptTrace capPrice [] ++ [provGamma.name])⟩
  ∧ getTokenDataM [provC10meta] 0 SimpleCache.empty USDC_MINT =
      ⟨.ok (.info { infoC10 with priceUsd := none,
                                 priceChangePercentage24h := none }),
       (SimpleCache.empty.set 0 ("token-metadata:" ++ USDC_MINT) (.info infoC10)
          DEFAULT_CACHE_TTL).set 0 ("token-data:" ++ USDC_MINT)
          (.info { infoC10 with priceUsd := none,
                                priceChangePercentage24h := none }) PRICE_CACHE_TTL,
       (attemptTrace capMetadata [] ++ [provC10meta.name]) ++
         attemptTrace capPrice [provC10meta]⟩
  ∧ getTokenDataM [provGamma] PRICE_CACHE_TTL
      ((SimpleCache.empty.set 0 ("token-price:" ++ USDC_MINT) (.price samplePrice)
          PRICE_CACHE_TTL).set 0 ("token-data:" ++ USDC_MINT)
          (.info (degradedInfo USDC_MINT samplePrice)) PRICE_CACHE_TTL)
      USDC_MINT =
      ⟨.ok (.info (degradedInfo USDC_MINT samplePrice)),
       (SimpleCache.empty.set 0 ("token-price:" ++ USDC_MINT) (.price samplePrice)
          PRICE_CACHE_TTL).set 0 ("token-data:" ++ USDC_MINT)
          (.info (degradedInfo USDC_MINT samplePrice)) PRICE_CACHE_TTL,
       []⟩ := by
  refine ⟨?_, ?_, ?_⟩
  · have hmfail : ∀ q ∈ [provGamma], skipsOrFails capMetadata USDC_MINT q := by
      intro q hq
      rcases List.mem_cons.mp hq with h1 | h2
      · subst h1; exact Or.inr ⟨_, "gamma metadata down", rfl, rfl⟩
      · cases h2
    exact (C10_token_data_degraded [provGamma] 0 SimpleCache.empty USDC_MINT
      (by decide) (by decide) (by decide) (by decide)).1 [] provGamma [] _
      samplePrice rfl hmfail (fun q hq => by cases hq) rfl rfl
  · have hpfail : ∀ q ∈ [provC10meta], skipsOrFails capPrice USDC_MINT q := by
      intro q hq
      rcases List.mem_cons.mp hq with h1 | h2
      · subst h1; exact Or.inr ⟨_, "price feed down", rfl, rfl⟩
      · cases h2
    exact (C10_token_data_degraded [provC10meta] 0 SimpleCache.empty USDC_MINT
      (by decide) (by decide) (by decide) (by decide)).2.1 [] provC10meta [] _
      infoC10 rfl (fun q hq => by cases hq) rfl rfl hpfail
  · exact (C10_token_data_degraded [provGamma] 0 SimpleCache.empty USDC_MINT
      (by decide) (by decide) (by decide) (by decide)).2.2
      (degradedInfo USDC_MINT samplePrice) _ PRICE_CACHE_TTL PRICE_CACHE_TTL
      (by rw [SimpleCache.find?_set_self]; simp) (by decide)

end SolanaApiToolkit
